import Mathlib

/-!
Shallow embedding of `src/mining/steam_miner.py` (the dota2-predictor match
miner).  The module mines match identifiers from the Steam API: a pure
validity predicate `valid`, a retrying fetch `get_response`, and the
`SteamMiner.run` harvesting loop that advances a sequence-number cursor and
persists it at the end of the run.

Modelling conventions:
* A JSON dictionary field that the code may find absent is an `Option`
  (`MatchJson.players`, `Player.leaver_status`); an uncaught Python
  exception (KeyError from a missing field, IOError escaping
  `urllib.urlopen`) is `Except.error ()`.
* The HTTP transport plus JSON decode is a black-box oracle
  `transport : Int → Int → Nat → FetchResult` giving the outcome of attempt
  `j` of a request for `sz` matches starting at sequence number `s` (the
  parameters `get_url` puts in the URL).
* File and console effects are explicit state in `RunState`: `output` is
  the lines written to the output file, `saved_seq` the content of
  `seq_num.txt` after `save_sequence_number`, `slept` the total seconds
  passed to `time.sleep`, `requests` the `(seq_num, matches_requested)`
  pairs of the URLs fetched, `processed` the `match_seq_num` of every
  record iterated by the inner loop, and `stopped_early` whether the
  `break` statement ran.
-/

/-- `MIN_DURATION = 1200` from the source. -/
def MIN_DURATION : Int := 1200

/-- `NUM_GAME_LIMIT = 100000 * 100` from the source. -/
def NUM_GAME_LIMIT : Int := 100000 * 100

/-- One entry of a match's `players` list; `leaver_status` is `none` when
the player dictionary lacks the key (the code reads it with
`player.get('leaver_status', 1)`). -/
structure Player where
  leaver_status : Option Int
  deriving Repr, DecidableEq

/-- One match dictionary from the response JSON.  `players` is `none` when
the `players` key is absent (the code reads it with `match_json['players']`,
which raises `KeyError` in that case). -/
structure MatchJson where
  match_id : Int
  match_seq_num : Int
  players : Option (List Player)
  duration : Int
  human_players : Int
  game_mode : Int
  deriving Repr, DecidableEq

/-- Embedding of the module-level `valid(match_json)` predicate.
`Except.error ()` is the uncaught `KeyError` raised by
`match_json['players']` when the key is missing. -/
def valid (match_json : MatchJson) : Except Unit Bool :=
  match match_json.players with
  | none => Except.error ()
  | some players =>
    if players.any (fun player => player.leaver_status.getD 1 == 1) then
      Except.ok false
    else if match_json.duration < MIN_DURATION then
      Except.ok false
    else if match_json.human_players ≠ 10 then
      Except.ok false
    else if match_json.game_mode ≠ 22 then
      Except.ok false
    else
      Except.ok true

/-- Outcome of one `urllib.urlopen` + `json.load` attempt, as observed by
`get_response`:
* `netError` — `urlopen` raises (network failure); the code has no handler
  for it;
* `badJson` — `json.load` raises `ValueError` (undecodable body);
* `missingResult` — the decoded JSON has no `result` key;
* `ok ms` — a well-formed response whose `result.matches` list is `ms`. -/
inductive FetchResult where
  | netError : FetchResult
  | badJson : FetchResult
  | missingResult : FetchResult
  | ok : List MatchJson → FetchResult
  deriving Repr, DecidableEq

/-- A transport oracle: `tr s sz j` is the outcome of attempt `j` of the
request for `sz` matches starting at sequence number `s`. -/
def Transport : Type := Int → Int → Nat → FetchResult

/-- Fuel-indexed body of the `for i in xrange(max_try)` loop of
`get_response`.  `fuel` is the number of attempts left, `i` the attempt
index, `sleeps` the number of `time.sleep(60)` calls so far.  Result:
`ok (some ms, sleeps)` on a successful response, `ok (none, sleeps)` when
the retry budget is exhausted (`return None`), `error ()` when `urlopen`
raises. -/
def get_responseGo (fetch : Nat → FetchResult) :
    Nat → Nat → Nat → Except Unit (Option (List MatchJson) × Nat)
  | 0, _, sleeps => Except.ok (none, sleeps)
  | fuel + 1, i, sleeps =>
    match fetch i with
    | FetchResult.netError => Except.error ()
    | FetchResult.badJson => get_responseGo fetch fuel (i + 1) (sleeps + 1)
    | FetchResult.missingResult => get_responseGo fetch fuel (i + 1) (sleeps + 1)
    | FetchResult.ok games => Except.ok (some games, sleeps)

/-- Embedding of `SteamMiner.get_response(url_api, max_try=10)`. -/
def get_response (fetch : Nat → FetchResult) (max_try : Nat := 10) :
    Except Unit (Option (List MatchJson) × Nat) :=
  get_responseGo fetch max_try 0 0

/-- The observable state threaded through `SteamMiner.run`. -/
structure RunState where
  seq_num : Int
  output : List Int
  requests : List (Int × Int)
  processed : List Int
  slept : Nat
  stopped_early : Bool
  saved_seq : Option Int
  deriving Repr, DecidableEq

/-- The state at the start of `run`: cursor loaded from `seq_num.txt`
(`get_starting_match_sequence_number`), nothing written yet. -/
def initState (seq0 : Int) : RunState :=
  { seq_num := seq0, output := [], requests := [], processed := [],
    slept := 0, stopped_early := false, saved_seq := none }

/-- Embedding of the inner loop of `run`:
`for match in response_json['result']['matches']: ...`.
For each match: write `match_id` to the output file when `valid`, then
unconditionally `self.seq_num = match['match_seq_num'] + 1`. -/
def processMatches : List MatchJson → RunState → Except Unit RunState
  | [], st => Except.ok st
  | m :: rest, st =>
    match valid m with
    | Except.error e => Except.error e
    | Except.ok v =>
      processMatches rest
        { st with
          output := if v then st.output ++ [m.match_id] else st.output,
          seq_num := m.match_seq_num + 1,
          processed := st.processed ++ [m.match_seq_num] }

/-- Embedding of the `for i in range(chunks + 1)` loop of `run`.  Each
iteration requests `remainder if i == chunks else 100` matches at the
current cursor, breaks when `get_response` returns `None`, and otherwise
processes the returned matches. -/
def runLoop (transport : Transport) (chunks remainder : Int) :
    List Nat → RunState → Except Unit RunState
  | [], st => Except.ok st
  | i :: rest, st =>
    let size : Int := if (i : Int) = chunks then remainder else 100
    let st1 : RunState := { st with requests := st.requests ++ [(st.seq_num, size)] }
    match get_response (transport st.seq_num size) 10 with
    | Except.error e => Except.error e
    | Except.ok (none, sleeps) =>
      Except.ok { st1 with slept := st1.slept + 60 * sleeps, stopped_early := true }
    | Except.ok (some games, sleeps) =>
      match processMatches games { st1 with slept := st1.slept + 60 * sleeps } with
      | Except.error e => Except.error e
      | Except.ok st2 => runLoop transport chunks remainder rest st2

namespace SteamMiner

/-- Embedding of `SteamMiner.run` (with the `__init__` clamp
`self.games_number = min(number_of_games, NUM_GAME_LIMIT)` folded in, and
`seq0` the cursor loaded from `seq_num.txt`).  `chunks` uses Python 2 floor
division, and the final `save_sequence_number` records the in-memory cursor
in `saved_seq`. -/
def run (transport : Transport) (number_of_games seq0 : Int) :
    Except Unit RunState :=
  let games_number := min number_of_games NUM_GAME_LIMIT
  let chunks := Int.fdiv games_number 100
  let remainder := games_number - chunks * 100
  match runLoop transport chunks remainder (List.range (chunks + 1).toNat) (initState seq0) with
  | Except.error e => Except.error e
  | Except.ok st => Except.ok { st with saved_seq := some st.seq_num }

/-- The value Python's `run` hands back to its caller: the method has no
`return` statement, so a normal completion returns `None` (here `()`), and
an uncaught exception propagates. -/
def run_return (transport : Transport) (number_of_games seq0 : Int) :
    Except Unit Unit :=
  (run transport number_of_games seq0).map (fun _ => ())

end SteamMiner

/-- The documented contract of the `start_at_match_seq_num` URL parameter:
a successful response only contains matches whose sequence number is at
least the requested start. -/
def honors (transport : Transport) : Prop :=
  ∀ s sz j ms, transport s sz j = FetchResult.ok ms →
    ∀ m ∈ ms, s ≤ m.match_seq_num

/-- The fetch outcomes `get_response` catches and retries. -/
def transientOnly (f : FetchResult) : Prop :=
  f = FetchResult.badJson ∨ f = FetchResult.missingResult

/-- The cursor value after processing records with the listed sequence
numbers, starting from `s0`: each record unconditionally sets the cursor to
its own sequence number plus one. -/
def cursorOf (s0 : Int) (ps : List Int) : Int :=
  ps.foldl (fun _ q => q + 1) s0

/-! ### Helper lemmas -/

theorem cursorOf_nil (s0 : Int) : cursorOf s0 [] = s0 := rfl

theorem cursorOf_cons (s0 q : Int) (ps : List Int) :
    cursorOf s0 (q :: ps) = cursorOf (q + 1) ps := rfl

theorem cursorOf_append (s0 : Int) (a b : List Int) :
    cursorOf s0 (a ++ b) = cursorOf (cursorOf s0 a) b := by
  simp [cursorOf, List.foldl_append]

theorem cursorOf_lb (c : Int) :
    ∀ (ps : List Int) (s0 : Int), c ≤ s0 → (∀ q ∈ ps, c ≤ q) →
      c ≤ cursorOf s0 ps := by
  intro ps
  induction ps with
  | nil => intro s0 hs _; exact hs
  | cons q t ih =>
    intro s0 _ hq
    rw [cursorOf_cons]
    refine ih (q + 1) ?_ ?_
    · have := hq q (List.mem_cons_self q t)
      omega
    · intro x hx; exact hq x (List.mem_cons_of_mem q hx)

theorem cursorOf_max :
    ∀ (ps : List Int) (s0 : Int), ps ≠ [] → ps.Pairwise (· ≤ ·) →
      ∃ mx, mx ∈ ps ∧ (∀ p ∈ ps, p ≤ mx) ∧ cursorOf s0 ps = mx + 1 := by
  intro ps
  induction ps with
  | nil => intro s0 h; exact absurd rfl h
  | cons q t ih =>
    intro s0 _ hpw
    rcases List.pairwise_cons.mp hpw with ⟨hq, hpt⟩
    cases t with
    | nil =>
      exact ⟨q, List.mem_cons_self q [], by
        intro p hp
        rcases List.mem_singleton.mp hp with rfl
        exact le_refl p, rfl⟩
    | cons b t' =>
      rcases ih (q + 1) (List.cons_ne_nil b t') hpt with ⟨mx, hmem, hbound, hcur⟩
      refine ⟨mx, List.mem_cons_of_mem q hmem, ?_, ?_⟩
      · intro p hp
        rcases List.mem_cons.mp hp with rfl | hp
        · exact le_trans (hq mx hmem) (le_refl mx)
        · exact hbound p hp
      · rw [cursorOf_cons]; exact hcur

theorem processMatches_ok :
    ∀ (ms : List MatchJson) (st st' : RunState),
      processMatches ms st = Except.ok st' →
      st'.processed = st.processed ++ ms.map (fun m => m.match_seq_num) ∧
      st'.seq_num = cursorOf st.seq_num (ms.map (fun m => m.match_seq_num)) ∧
      st'.requests = st.requests ∧ st'.slept = st.slept ∧
      st'.stopped_early = st.stopped_early ∧ st'.saved_seq = st.saved_seq := by
  intro ms
  induction ms with
  | nil =>
    intro st st' h
    simp only [processMatches] at h
    cases h
    simp [cursorOf_nil]
  | cons m rest ih =>
    intro st st' h
    simp only [processMatches] at h
    cases hv : valid m with
    | error e => rw [hv] at h; cases h
    | ok v =>
      rw [hv] at h
      rcases ih _ _ h with ⟨h1, h2, h3, h4, h5, h6⟩
      refine ⟨?_, ?_, h3, h4, h5, h6⟩
      · simp only [List.map_cons] at *
        rw [h1]; simp [List.append_assoc]
      · simp only [List.map_cons, cursorOf_cons]
        rw [h2]

theorem processMatches_seq_lb (c : Int) :
    ∀ (ms : List MatchJson) (st st' : RunState),
      processMatches ms st = Except.ok st' →
      c ≤ st.seq_num → (∀ m ∈ ms, c ≤ m.match_seq_num) →
      c ≤ st'.seq_num := by
  intro ms st st' h hc hms
  rcases processMatches_ok ms st st' h with ⟨-, h2, -⟩
  rw [h2]
  refine cursorOf_lb c _ _ hc ?_
  intro q hq
  rcases List.mem_map.mp hq with ⟨m, hm, rfl⟩
  exact hms m hm

theorem getResponseGo_ok_exists (f : Nat → FetchResult) :
    ∀ (fuel i s s' : Nat) (g : List MatchJson),
      get_responseGo f fuel i s = Except.ok (some g, s') →
      ∃ j, f j = FetchResult.ok g := by
  intro fuel
  induction fuel with
  | zero => intro i s s' g h; simp only [get_responseGo] at h; cases h
  | succ n ih =>
    intro i s s' g h
    simp only [get_responseGo] at h
    cases hf : f i with
    | netError => rw [hf] at h; cases h
    | badJson => rw [hf] at h; exact ih _ _ _ _ h
    | missingResult => rw [hf] at h; exact ih _ _ _ _ h
    | ok games =>
      rw [hf] at h
      cases h
      exact ⟨i, hf⟩

theorem getResponseGo_transient (f : Nat → FetchResult)
    (h : ∀ j, transientOnly (f j)) :
    ∀ (fuel i s : Nat), get_responseGo f fuel i s = Except.ok (none, s + fuel) := by
  intro fuel
  induction fuel with
  | zero => intro i s; simp [get_responseGo]
  | succ n ih =>
    intro i s
    rcases h i with hf | hf <;>
      simp only [get_responseGo, hf] <;>
      · rw [ih (i + 1) (s + 1)]
        congr 2
        omega

theorem runLoop_ok (transport : Transport) (chunks remainder : Int) :
    ∀ (is : List Nat) (st st' : RunState),
      runLoop transport chunks remainder is st = Except.ok st' →
      ∃ ds : List Int,
        st'.processed = st.processed ++ ds ∧
        st'.seq_num = cursorOf st.seq_num ds ∧
        st'.saved_seq = st.saved_seq := by
  intro is
  induction is with
  | nil =>
    intro st st' h
    simp only [runLoop] at h
    cases h
    exact ⟨[], by simp [cursorOf_nil]⟩
  | cons i rest ih =>
    intro st st' h
    simp only [runLoop] at h
    cases hresp : get_response
        (transport st.seq_num (if (i : Int) = chunks then remainder else 100)) 10 with
    | error e => rw [hresp] at h; cases h
    | ok pr =>
      rw [hresp] at h
      rcases pr with ⟨og, sleeps⟩
      cases og with
      | none =>
        cases h
        exact ⟨[], by simp [cursorOf_nil]⟩
      | some games =>
        simp only at h
        cases hpm : processMatches games _ with
        | error e => rw [hpm] at h; cases h
        | ok st2 =>
          rw [hpm] at h
          rcases ih st2 st' h with ⟨ds, hd1, hd2, hd3⟩
          rcases processMatches_ok _ _ _ hpm with ⟨hp1, hp2, -, -, -, hp6⟩
          refine ⟨games.map (fun m => m.match_seq_num) ++ ds, ?_, ?_, ?_⟩
          · rw [hd1, hp1]; simp [List.append_assoc]
          · rw [hd2, hp2, cursorOf_append]
          · rw [hd3, hp6]

theorem runLoop_lb (transport : Transport) (htr : honors transport)
    (chunks remainder : Int) :
    ∀ (is : List Nat) (st st' : RunState) (c : Int),
      c ≤ st.seq_num →
      runLoop transport chunks remainder is st = Except.ok st' →
      c ≤ st'.seq_num ∧ ∀ q ∈ st'.processed, q ∈ st.processed ∨ c ≤ q := by
  intro is
  induction is with
  | nil =>
    intro st st' c hc h
    simp only [runLoop] at h
    cases h
    exact ⟨hc, fun q hq => Or.inl hq⟩
  | cons i rest ih =>
    intro st st' c hc h
    simp only [runLoop] at h
    cases hresp : get_response
        (transport st.seq_num (if (i : Int) = chunks then remainder else 100)) 10 with
    | error e => rw [hresp] at h; cases h
    | ok pr =>
      rw [hresp] at h
      rcases pr with ⟨og, sleeps⟩
      cases og with
      | none =>
        cases h
        exact ⟨hc, fun q hq => Or.inl hq⟩
      | some games =>
        simp only at h
        cases hpm : processMatches games _ with
        | error e => rw [hpm] at h; cases h
        | ok st2 =>
          rw [hpm] at h
          have hgames : ∀ m ∈ games, st.seq_num ≤ m.match_seq_num := by
            rcases getResponseGo_ok_exists _ _ _ _ _ _ hresp with ⟨j, hj⟩
            exact htr st.seq_num _ j games hj
          have hgc : ∀ m ∈ games, c ≤ m.match_seq_num := fun m hm =>
            le_trans hc (hgames m hm)
          have hc2 : c ≤ st2.seq_num :=
            processMatches_seq_lb c games _ st2 hpm hc hgc
          rcases ih st2 st' c hc2 h with ⟨h1, h2⟩
          refine ⟨h1, ?_⟩
          intro q hq
          rcases h2 q hq with hq2 | hq2
          · rcases processMatches_ok _ _ _ hpm with ⟨hp1, -⟩
            rw [hp1] at hq2
            simp only [List.mem_append] at hq2
            rcases hq2 with hq3 | hq3
            · exact Or.inl hq3
            · rcases List.mem_map.mp hq3 with ⟨m, hm, rfl⟩
              exact Or.inr (hgc m hm)
          · exact Or.inr hq2

theorem runLoop_empty (transport : Transport)
    (h : ∀ s sz j, transport s sz j = FetchResult.ok [])
    (chunks remainder : Int) :
    ∀ (is : List Nat) (st : RunState),
      ∃ st', runLoop transport chunks remainder is st = Except.ok st' ∧
        st'.requests = st.requests ++
          is.map (fun (i : Nat) =>
            (st.seq_num, if (i : Int) = chunks then remainder else (100 : Int))) ∧
        st'.seq_num = st.seq_num ∧ st'.processed = st.processed ∧
        st'.output = st.output ∧ st'.slept = st.slept ∧
        st'.stopped_early = st.stopped_early ∧ st'.saved_seq = st.saved_seq := by
  intro is
  induction is with
  | nil =>
    intro st
    exact ⟨st, rfl, by simp⟩
  | cons i rest ih =>
    intro st
    have hresp :
        get_response (transport st.seq_num (if (i : Int) = chunks then remainder else 100)) 10
          = Except.ok (some [], 0) := by
      simp [get_response, get_responseGo, h]
    rcases ih { st with
        requests := st.requests ++
          [(st.seq_num, if (i : Int) = chunks then remainder else 100)] } with
      ⟨st', hst', hr, hs, hp, ho, hsl, hse, hsv⟩
    refine ⟨st', ?_, ?_, hs, hp, ho, hsl, hse, hsv⟩
    · simp only [runLoop, hresp, processMatches]
      convert hst' using 2
    · rw [hr]
      simp [List.append_assoc]

theorem run_ok_spec (transport : Transport) (n s0 : Int) (st : RunState)
    (h : SteamMiner.run transport n s0 = Except.ok st) :
    st.saved_seq = some st.seq_num ∧ st.seq_num = cursorOf s0 st.processed := by
  simp only [SteamMiner.run] at h
  cases hl : runLoop transport (Int.fdiv (min n NUM_GAME_LIMIT) 100)
      (min n NUM_GAME_LIMIT - Int.fdiv (min n NUM_GAME_LIMIT) 100 * 100)
      (List.range (Int.fdiv (min n NUM_GAME_LIMIT) 100 + 1).toNat) (initState s0) with
  | error e => rw [hl] at h; cases h
  | ok stl =>
    rw [hl] at h
    cases h
    rcases runLoop_ok _ _ _ _ _ _ hl with ⟨ds, h1, h2, -⟩
    simp only [initState, List.nil_append] at h1 h2
    subst h1
    exact ⟨rfl, h2⟩

theorem run_ok_lb (transport : Transport) (htr : honors transport)
    (n s0 : Int) (st : RunState)
    (h : SteamMiner.run transport n s0 = Except.ok st) :
    s0 ≤ st.seq_num ∧ ∀ q ∈ st.processed, s0 ≤ q := by
  simp only [SteamMiner.run] at h
  cases hl : runLoop transport (Int.fdiv (min n NUM_GAME_LIMIT) 100)
      (min n NUM_GAME_LIMIT - Int.fdiv (min n NUM_GAME_LIMIT) 100 * 100)
      (List.range (Int.fdiv (min n NUM_GAME_LIMIT) 100 + 1).toNat) (initState s0) with
  | error e => rw [hl] at h; cases h
  | ok stl =>
    rw [hl] at h
    cases h
    rcases runLoop_lb _ htr _ _ _ _ _ s0 (le_refl s0) hl with ⟨h1, h2⟩
    refine ⟨h1, ?_⟩
    intro q hq
    rcases h2 q hq with hq2 | hq2
    · simp [initState] at hq2
    · exact hq2

theorem fdiv_clamp_nonneg (n : Int) (h0 : 0 ≤ n) :
    0 ≤ Int.fdiv (min n NUM_GAME_LIMIT) 100 := by
  have hmin : 0 ≤ min n NUM_GAME_LIMIT := by
    refine le_min h0 ?_
    norm_num [NUM_GAME_LIMIT]
  exact Int.fdiv_nonneg hmin (by norm_num)

theorem range_map_batch_sizes (remainder : Int) :
    ∀ (k : Nat) (chunks : Int), (chunks = (k : Int)) →
      (List.range (k + 1)).map
          (fun (i : Nat) => if (i : Int) = chunks then remainder else (100 : Int)) =
        List.replicate k (100 : Int) ++ [remainder] := by
  intro k
  induction k with
  | zero => intro chunks hch; simp [hch, List.range_succ]
  | succ j ih =>
    intro chunks hch
    rw [List.range_succ, List.map_append]
    have hmap :
        (List.range (j + 1)).map
            (fun (i : Nat) => if (i : Int) = chunks then remainder else (100 : Int)) =
          (List.range (j + 1)).map (fun _ => (100 : Int)) := by
      refine List.map_congr_left ?_
      intro i hi
      have : i < j + 1 := List.mem_range.mp hi
      have : (i : Int) ≠ chunks := by
        rw [hch]
        intro hcontra
        omega
      simp [this]
    rw [hmap]
    have hlast : ((j + 1 : Nat) : Int) = chunks := by rw [hch]
    simp [hlast, List.map_const', List.replicate_succ']

theorem valid_of_leaver (m : MatchJson) (ps : List Player) (p : Player)
    (hps : m.players = some ps) (hp : p ∈ ps)
    (hst : p.leaver_status.getD 1 = 1) :
    valid m = Except.ok false := by
  simp only [valid, hps]
  have hany : ps.any (fun player => player.leaver_status.getD 1 == 1) = true := by
    refine List.any_eq_true.mpr ⟨p, hp, ?_⟩
    exact beq_iff_eq.mpr hst
  simp [hany]

/-! ### Claim theorems: the validity filter -/

/-- A match whose two players carry the distinct leaver statuses 0 and 2,
with all other criteria satisfied. -/
def leaverCodesMatch : MatchJson :=
  { match_id := 1, match_seq_num := 10,
    players := some [{ leaver_status := some 0 }, { leaver_status := some 2 }],
    duration := 1200, human_players := 10, game_mode := 22 }

/-- Claim C1 (counterexample): `valid` accepts a record whose players carry
the two distinct statuses 0 and 2, so whichever single status code is taken
to mean "did not leave", some player here carries a different one and the
record still passes — only the single code 1 is rejected, not "anything
other than the did-not-leave code". -/
theorem valid_single_leaver_code_cex :
    valid leaverCodesMatch = Except.ok true ∧
    leaverCodesMatch.players =
      some [{ leaver_status := some 0 }, { leaver_status := some 2 }] :=
  ⟨rfl, rfl⟩

/-- Claim C1 (amended): `valid` returns false exactly on the single
disqualifying status code 1 (to which an absent status defaults): whenever
some player's `leaver_status` reads as 1, the record fails criterion 1. -/
theorem valid_leaver_code_one (m : MatchJson) (ps : List Player) (p : Player)
    (hps : m.players = some ps) (hp : p ∈ ps)
    (hst : p.leaver_status.getD 1 = 1) :
    valid m = Except.ok false :=
  valid_of_leaver m ps p hps hp hst

/-- A match with a single player whose leaver status is 1. -/
def leaverOneMatch : MatchJson :=
  { match_id := 2, match_seq_num := 11,
    players := some [{ leaver_status := some 1 }],
    duration := 1500, human_players := 10, game_mode := 22 }

/-- Witness for the amended claim C1 at a concrete record. -/
theorem valid_leaver_code_one_witness :
    leaverOneMatch.players = some [{ leaver_status := some 1 }] ∧
    valid leaverOneMatch = Except.ok false :=
  ⟨rfl, valid_leaver_code_one leaverOneMatch [{ leaver_status := some 1 }]
    { leaver_status := some 1 } rfl (List.mem_singleton.mpr rfl) rfl⟩

/-- Claim C10: a player entry lacking the `leaver_status` field defaults to
the disqualifying code 1 (`player.get('leaver_status', 1)`), so the record
is rejected. -/
theorem valid_missing_leaver_status (m : MatchJson) (ps : List Player)
    (p : Player) (hps : m.players = some ps) (hp : p ∈ ps)
    (hnone : p.leaver_status = none) :
    valid m = Except.ok false :=
  valid_of_leaver m ps p hps hp (by rw [hnone]; rfl)

/-- A match with a single player entry lacking the leaver-status field. -/
def missingStatusMatch : MatchJson :=
  { match_id := 3, match_seq_num := 12,
    players := some [{ leaver_status := none }],
    duration := 1500, human_players := 10, game_mode := 22 }

/-- Witness for claim C10 at a concrete record. -/
theorem valid_missing_leaver_status_witness :
    missingStatusMatch.players = some [{ leaver_status := none }] ∧
    valid missingStatusMatch = Except.ok false :=
  ⟨rfl, valid_missing_leaver_status missingStatusMatch [{ leaver_status := none }]
    { leaver_status := none } rfl (List.mem_singleton.mpr rfl) rfl⟩

/-- The duration, player-count and mode criteria of `valid` on their own,
for stating that an empty `players` list is judged on these alone. -/
def remainingCriteria (match_json : MatchJson) : Except Unit Bool :=
  if match_json.duration < MIN_DURATION then Except.ok false
  else if match_json.human_players ≠ 10 then Except.ok false
  else if match_json.game_mode ≠ 22 then Except.ok false
  else Except.ok true

/-- A match lacking the `players` field, all other criteria satisfied. -/
def noPlayersFieldMatch : MatchJson :=
  { match_id := 4, match_seq_num := 13, players := none,
    duration := 1500, human_players := 10, game_mode := 22 }

/-- Claim C7 (counterexample): a record lacking the `players` field makes
`valid` raise (`KeyError`) instead of being treated as having no leavers,
so the filter is not total on such records. -/
theorem valid_missing_players_cex :
    valid noPlayersFieldMatch = Except.error () ∧
    noPlayersFieldMatch.players = none :=
  ⟨rfl, rfl⟩

/-- Claim C7 (amended): a record with an empty `players` sequence is
treated as having no leavers and judged solely on the remaining criteria,
but a record lacking the `players` field altogether raises a `KeyError`. -/
theorem valid_players_edge (m : MatchJson) :
    (m.players = some [] → valid m = remainingCriteria m) ∧
    (m.players = none → valid m = Except.error ()) := by
  constructor
  · intro h
    simp [valid, h, remainingCriteria]
  · intro h
    simp [valid, h]

/-- A match with an empty `players` sequence and a too-short duration. -/
def emptyPlayersMatch : MatchJson :=
  { match_id := 5, match_seq_num := 14, players := some [],
    duration := 1000, human_players := 10, game_mode := 22 }

/-- Witness for the amended claim C7 at a concrete record. -/
theorem valid_players_edge_witness :
    emptyPlayersMatch.players = some [] ∧
    valid emptyPlayersMatch = remainingCriteria emptyPlayersMatch :=
  ⟨rfl, (valid_players_edge emptyPlayersMatch).1 rfl⟩

/-- Claim C8: with the `players` field present, every record shorter than
`MIN_DURATION = 1200` is rejected, and a record of exactly 1200 seconds
with all other criteria satisfied is accepted. -/
theorem valid_duration_threshold (m : MatchJson) (ps : List Player)
    (hps : m.players = some ps) :
    (m.duration < MIN_DURATION → valid m = Except.ok false) ∧
    (m.duration = MIN_DURATION →
      (∀ p ∈ ps, p.leaver_status.getD 1 ≠ 1) →
      m.human_players = 10 → m.game_mode = 22 →
      valid m = Except.ok true) := by
  constructor
  · intro hd
    simp only [valid, hps]
    cases hany : ps.any (fun player => player.leaver_status.getD 1 == 1) with
    | true => simp [hany]
    | false => simp [hany, hd]
  · intro hd hnl hh hg
    have hany : ps.any (fun player => player.leaver_status.getD 1 == 1) = false := by
      rw [List.any_eq_false]
      intro p hp
      simp only [beq_iff_eq]
      exact hnl p hp
    simp [valid, hps, hany, hd, hh, hg, MIN_DURATION]

/-- A 1000-second match with one non-leaver player. -/
def shortMatch : MatchJson :=
  { match_id := 6, match_seq_num := 15,
    players := some [{ leaver_status := some 0 }],
    duration := 1000, human_players := 10, game_mode := 22 }

/-- A match of exactly 1200 seconds with all other criteria satisfied. -/
def exactMatch : MatchJson :=
  { match_id := 7, match_seq_num := 16,
    players := some [{ leaver_status := some 0 }],
    duration := 1200, human_players := 10, game_mode := 22 }

/-- Witness for claim C8: rejection at 1000 seconds, acceptance at exactly
1200 seconds. -/
theorem valid_duration_threshold_witness :
    valid shortMatch = Except.ok false ∧ valid exactMatch = Except.ok true :=
  ⟨(valid_duration_threshold shortMatch [{ leaver_status := some 0 }] rfl).1
      (by decide),
   (valid_duration_threshold exactMatch [{ leaver_status := some 0 }] rfl).2
      rfl (by decide) rfl rfl⟩

theorem runLoop_sizes (transport : Transport) (chunks remainder : Int) :
    ∀ (is : List Nat) (st st' : RunState),
      runLoop transport chunks remainder is st = Except.ok st' →
      st'.stopped_early = false → st.stopped_early = false →
      st'.requests.map Prod.snd = st.requests.map Prod.snd ++
        is.map (fun (i : Nat) => if (i : Int) = chunks then remainder else (100 : Int)) := by
  intro is
  induction is with
  | nil =>
    intro st st' h _ _
    simp only [runLoop] at h
    cases h
    simp
  | cons i rest ih =>
    intro st st' h hst' hst
    simp only [runLoop] at h
    cases hresp : get_response
        (transport st.seq_num (if (i : Int) = chunks then remainder else 100)) 10 with
    | error e => rw [hresp] at h; cases h
    | ok pr =>
      rw [hresp] at h
      rcases pr with ⟨og, sleeps⟩
      cases og with
      | none =>
        cases h
        simp at hst'
      | some games =>
        simp only at h
        cases hpm : processMatches games _ with
        | error e => rw [hpm] at h; cases h
        | ok st2 =>
          rw [hpm] at h
          rcases processMatches_ok _ _ _ hpm with ⟨-, -, hreq, -, hse, -⟩
          have hst2 : st2.stopped_early = false := by
            rw [hse]; exact hst
          rw [ih st2 st' h hst' hst2, hreq]
          simp [List.append_assoc]

theorem runLoop_transient (transport : Transport)
    (hall : ∀ s sz j, transientOnly (transport s sz j))
    (chunks remainder : Int) (i : Nat) (rest : List Nat) (st : RunState) :
    runLoop transport chunks remainder (i :: rest) st =
      Except.ok { st with
        requests := st.requests ++
          [(st.seq_num, if (i : Int) = chunks then remainder else 100)],
        slept := st.slept + 60 * 10,
        stopped_early := true } := by
  have hresp : get_response
      (transport st.seq_num (if (i : Int) = chunks then remainder else 100)) 10
      = Except.ok (none, 10) :=
    getResponseGo_transient _ (fun j => hall _ _ j) 10 0 0
  simp only [runLoop, hresp]

/-! ### Claim theorems: the harvest loop -/

/-- A transport whose every response is well-formed and empty. -/
def emptyTransport : Transport := fun _ _ _ => FetchResult.ok []

/-- A transport whose every attempt yields an undecodable (non-JSON)
body. -/
def badJsonTransport : Transport := fun _ _ _ => FetchResult.badJson

/-- A transport whose every attempt fails at the network level, making
`urllib.urlopen` raise. -/
def netErrorTransport : Transport := fun _ _ _ => FetchResult.netError

/-- Claim C3 (counterexample): on a network failure `urlopen` raises and
nothing in `get_response` catches it: there is no backoff and no retry,
and the whole run aborts with the uncaught exception (before saving the
cursor) instead of degrading to a non-fatal early stop. -/
theorem run_network_failure_cex :
    get_response (fun _ => FetchResult.netError) 10 = Except.error () ∧
    SteamMiner.run netErrorTransport 250 0 = Except.error () :=
  ⟨rfl, rfl⟩

/-- Claim C3 (amended): the two caught failure kinds — an undecodable
response and a response missing the `result` key — are each followed by a
60-second sleep and a retry of the batch, up to 10 attempts; when the
budget is exhausted the run stops early, non-fatally, with the cursor
still saved.  (A network failure, by contrast, raises; see the
counterexample.) -/
theorem run_retry_exhaustion (transport : Transport) (n s0 : Int)
    (h0 : 0 ≤ n) (hall : ∀ s sz j, transientOnly (transport s sz j)) :
    ∃ st, SteamMiner.run transport n s0 = Except.ok st ∧
      st.slept = 60 * 10 ∧ st.stopped_early = true ∧
      st.saved_seq = some s0 ∧ st.processed = [] ∧ st.requests.length = 1 := by
  have hch : 0 ≤ Int.fdiv (min n NUM_GAME_LIMIT) 100 := fdiv_clamp_nonneg n h0
  have hto : (Int.fdiv (min n NUM_GAME_LIMIT) 100 + 1).toNat
      = (Int.fdiv (min n NUM_GAME_LIMIT) 100).toNat + 1 := by omega
  simp only [SteamMiner.run, hto, List.range_succ_eq_map]
  rw [runLoop_transient transport hall]
  exact ⟨_, rfl, rfl, rfl, rfl, rfl, rfl⟩

/-- Witness for the amended claim C3: a transport whose body never decodes
exhausts the 10 attempts of the first batch with 600 seconds of backoff
and the run ends early with the cursor saved. -/
theorem run_retry_exhaustion_witness :
    ∃ st, SteamMiner.run badJsonTransport 250 0 = Except.ok st ∧
      st.slept = 60 * 10 ∧ st.stopped_early = true ∧
      st.saved_seq = some 0 ∧ st.processed = [] ∧ st.requests.length = 1 :=
  run_retry_exhaustion badJsonTransport 250 0 (by decide)
    (fun _ _ _ => Or.inl rfl)

/-- Claim C5 (counterexample): with every response a well-formed empty
result, a 250-game run still issues all three planned batch requests and
never stops early — an empty result is not treated as a stop signal. -/
theorem run_empty_result_cex :
    (SteamMiner.run emptyTransport 250 0).map
        (fun st => (st.requests.length, st.stopped_early)) =
      Except.ok (3, false) :=
  rfl

/-- Claim C5 (amended): a successful, well-formed empty result is not a
termination signal: the loop proceeds to issue every remaining planned
batch request and the run does not stop early (`break` runs only when the
retry budget of a batch is exhausted). -/
theorem run_empty_result_continues (transport : Transport) (n s0 : Int)
    (h0 : 0 ≤ n) (hempty : ∀ s sz j, transport s sz j = FetchResult.ok []) :
    ∃ st, SteamMiner.run transport n s0 = Except.ok st ∧
      st.stopped_early = false ∧ st.processed = [] ∧
      st.requests.length = (Int.fdiv (min n NUM_GAME_LIMIT) 100).toNat + 1 := by
  have hch : 0 ≤ Int.fdiv (min n NUM_GAME_LIMIT) 100 := fdiv_clamp_nonneg n h0
  have hto : (Int.fdiv (min n NUM_GAME_LIMIT) 100 + 1).toNat
      = (Int.fdiv (min n NUM_GAME_LIMIT) 100).toNat + 1 := by omega
  simp only [SteamMiner.run]
  rcases runLoop_empty transport hempty
      (Int.fdiv (min n NUM_GAME_LIMIT) 100)
      (min n NUM_GAME_LIMIT - Int.fdiv (min n NUM_GAME_LIMIT) 100 * 100)
      (List.range (Int.fdiv (min n NUM_GAME_LIMIT) 100 + 1).toNat)
      (initState s0) with
    ⟨st', hst', hr, -, hp, -, -, hse, -⟩
  rw [hst']
  refine ⟨_, rfl, ?_, ?_, ?_⟩
  · show st'.stopped_early = false
    rw [hse]; rfl
  · show st'.processed = []
    rw [hp]; rfl
  · show st'.requests.length
        = (Int.fdiv (min n NUM_GAME_LIMIT) 100).toNat + 1
    rw [hr]
    simp [initState, hto]

/-- Witness for the amended claim C5 at a concrete 250-game run. -/
theorem run_empty_result_continues_witness :
    ∃ st, SteamMiner.run emptyTransport 250 0 = Except.ok st ∧
      st.stopped_early = false ∧ st.processed = [] ∧
      st.requests.length = (Int.fdiv (min 250 NUM_GAME_LIMIT) 100).toNat + 1 :=
  run_empty_result_continues emptyTransport 250 0 (by decide)
    (fun _ _ _ => rfl)

/-- Claim C6 (counterexample): at target 200 — an exact multiple of 100 —
the code issues a third, zero-sized request after the two full batches:
the batch plan is [100, 100, 0], not [100, 100]. -/
theorem run_zero_batch_cex :
    (SteamMiner.run emptyTransport 200 0).map
        (fun st => st.requests.map Prod.snd) = Except.ok [100, 100, 0] ∧
    (SteamMiner.run emptyTransport 200 0).map
        (fun st => st.requests.map Prod.snd) ≠ Except.ok [100, 100] := by
  refine ⟨rfl, ?_⟩
  intro hcontra
  rw [show (SteamMiner.run emptyTransport 200 0).map
      (fun st => st.requests.map Prod.snd) = Except.ok [100, 100, 0] from rfl]
    at hcontra
  simp at hcontra

/-- Claim C6 (amended): `run` clamps its target to
`min(number_of_games, NUM_GAME_LIMIT)` and, on every run that does not
stop early, issues `chunks = games_number div 100` requests of size 100
followed by exactly one final request of size
`remainder = games_number - chunks * 100` — including a zero-sized final
request when the target is an exact multiple of 100; at target 250 the
plan is [100, 100, 50]. -/
theorem run_batch_plan (transport : Transport) (n s0 : Int) (h0 : 0 ≤ n)
    (st : RunState) (h : SteamMiner.run transport n s0 = Except.ok st)
    (hne : st.stopped_early = false) :
    st.requests.map Prod.snd =
      List.replicate (Int.fdiv (min n NUM_GAME_LIMIT) 100).toNat (100 : Int) ++
        [min n NUM_GAME_LIMIT - Int.fdiv (min n NUM_GAME_LIMIT) 100 * 100] := by
  have hch : 0 ≤ Int.fdiv (min n NUM_GAME_LIMIT) 100 := fdiv_clamp_nonneg n h0
  have hto : (Int.fdiv (min n NUM_GAME_LIMIT) 100 + 1).toNat
      = (Int.fdiv (min n NUM_GAME_LIMIT) 100).toNat + 1 := by omega
  simp only [SteamMiner.run] at h
  cases hl : runLoop transport (Int.fdiv (min n NUM_GAME_LIMIT) 100)
      (min n NUM_GAME_LIMIT - Int.fdiv (min n NUM_GAME_LIMIT) 100 * 100)
      (List.range (Int.fdiv (min n NUM_GAME_LIMIT) 100 + 1).toNat)
      (initState s0) with
  | error e => rw [hl] at h; cases h
  | ok stl =>
    rw [hl] at h
    cases h
    have hstl : stl.stopped_early = false := hne
    have hsz := runLoop_sizes transport
      (Int.fdiv (min n NUM_GAME_LIMIT) 100)
      (min n NUM_GAME_LIMIT - Int.fdiv (min n NUM_GAME_LIMIT) 100 * 100)
      (List.range (Int.fdiv (min n NUM_GAME_LIMIT) 100 + 1).toNat)
      (initState s0) stl hl hstl rfl
    rw [hto] at hsz
    rw [range_map_batch_sizes _ (Int.fdiv (min n NUM_GAME_LIMIT) 100).toNat
      (Int.fdiv (min n NUM_GAME_LIMIT) 100) (Int.toNat_of_nonneg hch).symm] at hsz
    show stl.requests.map Prod.snd = _
    rw [hsz]
    simp [initState]

/-- The observable state of a 250-game run against always-empty
responses. -/
def run250State : RunState :=
  { seq_num := 0, output := [], requests := [(0, 100), (0, 100), (0, 50)],
    processed := [], slept := 0, stopped_early := false, saved_seq := some 0 }

/-- Witness for the amended claim C6: at target 250 the plan is three
requests of sizes 100, 100 and 50. -/
theorem run_batch_plan_witness :
    SteamMiner.run emptyTransport 250 0 = Except.ok run250State ∧
    run250State.requests.map Prod.snd =
      List.replicate (Int.fdiv (min 250 NUM_GAME_LIMIT) 100).toNat (100 : Int) ++
        [min 250 NUM_GAME_LIMIT - Int.fdiv (min 250 NUM_GAME_LIMIT) 100 * 100] ∧
    run250State.requests.map Prod.snd = [100, 100, 50] :=
  ⟨rfl, run_batch_plan emptyTransport 250 0 (by decide) run250State rfl rfl,
    rfl⟩

/-- Claim C4: on every normal completion the cursor equals the fold that
unconditionally sets it to each processed record's sequence number plus
one (the `output` of accepted identifiers plays no role), so it depends
only on the concatenated processed stream and not on its chunking into
batches, and on a provider-conformant (nondecreasing) stream it equals the
maximum processed sequence number plus one. -/
theorem run_cursor_advance (transport : Transport) (n s0 : Int)
    (st : RunState) (h : SteamMiner.run transport n s0 = Except.ok st) :
    st.seq_num = cursorOf s0 st.processed ∧
    (st.processed.Pairwise (· ≤ ·) → st.processed ≠ [] →
      ∃ mx, mx ∈ st.processed ∧ (∀ p ∈ st.processed, p ≤ mx) ∧
        st.seq_num = mx + 1) ∧
    (∀ (transport2 : Transport) (n2 : Int) (st2 : RunState),
      SteamMiner.run transport2 n2 s0 = Except.ok st2 →
      st2.processed = st.processed → st2.seq_num = st.seq_num) := by
  rcases run_ok_spec transport n s0 st h with ⟨-, hc⟩
  refine ⟨hc, ?_, ?_⟩
  · intro hpw hne
    rcases cursorOf_max st.processed s0 hne hpw with ⟨mx, hm1, hm2, hm3⟩
    refine ⟨mx, hm1, hm2, ?_⟩
    rw [hc]; exact hm3
  · intro transport2 n2 st2 h2 hpeq
    rcases run_ok_spec transport2 n2 s0 st2 h2 with ⟨-, hc2⟩
    rw [hc2, hpeq, hc]

/-- A match with sequence number 5 that passes every validity criterion. -/
def seqFiveMatch : MatchJson :=
  { match_id := 55, match_seq_num := 5, players := some [],
    duration := 1500, human_players := 10, game_mode := 22 }

/-- A match with sequence number 7 rejected for having a leaver. -/
def seqSevenMatch : MatchJson :=
  { match_id := 77, match_seq_num := 7,
    players := some [{ leaver_status := some 1 }],
    duration := 1500, human_players := 10, game_mode := 22 }

/-- A transport returning one valid and one invalid match per batch. -/
def twoMatchTransport : Transport :=
  fun _ _ _ => FetchResult.ok [seqFiveMatch, seqSevenMatch]

/-- The observable state of a 50-game run against `twoMatchTransport`:
only the valid match id 55 is written, but the cursor advanced past both
records to 8. -/
def runTwoState : RunState :=
  { seq_num := 8, output := [55], requests := [(0, 50)], processed := [5, 7],
    slept := 0, stopped_early := false, saved_seq := some 8 }

/-- Witness for claim C4: the cursor advance is unconditional — the second
record is invalid yet the final cursor is its sequence number plus one. -/
theorem run_cursor_advance_witness :
    SteamMiner.run twoMatchTransport 50 0 = Except.ok runTwoState ∧
    runTwoState.seq_num = cursorOf 0 runTwoState.processed :=
  ⟨rfl, (run_cursor_advance twoMatchTransport 50 0 runTwoState rfl).1⟩

/-- Claim C2: every normally terminating run (full completion or early
stop) persists the final in-memory cursor, and a second run started from
that persisted cursor — against a transport honoring the
`start_at_match_seq_num` request parameter — only processes sequence
numbers at or beyond the saved cursor, while (for a provider-conformant,
nondecreasing first stream) every sequence number of the first run lies
strictly below it: no reprocessing. -/
theorem run_saves_and_resumes (transport1 transport2 : Transport)
    (n1 n2 s0 : Int) (st1 st2 : RunState)
    (h1 : SteamMiner.run transport1 n1 s0 = Except.ok st1)
    (hpw : st1.processed.Pairwise (· ≤ ·))
    (htr2 : honors transport2)
    (h2 : SteamMiner.run transport2 n2 st1.seq_num = Except.ok st2) :
    st1.saved_seq = some st1.seq_num ∧ st2.saved_seq = some st2.seq_num ∧
    (∀ p ∈ st1.processed, p < st1.seq_num) ∧
    (∀ q ∈ st2.processed, st1.seq_num ≤ q) := by
  rcases run_ok_spec transport1 n1 s0 st1 h1 with ⟨hs1, hc1⟩
  rcases run_ok_spec transport2 n2 st1.seq_num st2 h2 with ⟨hs2, -⟩
  rcases run_ok_lb transport2 htr2 n2 st1.seq_num st2 h2 with ⟨-, hlb⟩
  refine ⟨hs1, hs2, ?_, hlb⟩
  intro p hp
  have hne : st1.processed ≠ [] := by
    intro hcontra
    rw [hcontra] at hp
    cases hp
  rcases cursorOf_max st1.processed s0 hne hpw with ⟨mx, -, hm2, hm3⟩
  have hpm := hm2 p hp
  rw [hc1, hm3]
  omega

/-- A transport returning the single valid match `seqFiveMatch`. -/
def oneMatchTransport : Transport := fun _ _ _ => FetchResult.ok [seqFiveMatch]

/-- The observable state of a 50-game run against `oneMatchTransport`. -/
def runOneState : RunState :=
  { seq_num := 6, output := [55], requests := [(0, 50)], processed := [5],
    slept := 0, stopped_early := false, saved_seq := some 6 }

/-- The observable state of a 50-game resumption run from cursor 6
against always-empty responses. -/
def runResumeState : RunState :=
  { seq_num := 6, output := [], requests := [(6, 50)], processed := [],
    slept := 0, stopped_early := false, saved_seq := some 6 }

/-- Witness for claim C2: a first run ending at cursor 6 persists it, and
a resumed run from 6 processes nothing below 6. -/
theorem run_saves_and_resumes_witness :
    SteamMiner.run oneMatchTransport 50 0 = Except.ok runOneState ∧
    runOneState.saved_seq = some runOneState.seq_num ∧
    (∀ p ∈ runOneState.processed, p < runOneState.seq_num) ∧
    (∀ q ∈ runResumeState.processed, runOneState.seq_num ≤ q) := by
  have h := run_saves_and_resumes oneMatchTransport emptyTransport 50 50 0
    runOneState runResumeState rfl (by simp [runOneState])
    (by intro s sz j ms h m hm; cases h; cases hm) rfl
  exact ⟨rfl, h.1, h.2.2.1, h.2.2.2⟩

/-- Claim C9 (counterexample): two runs whose stopped-early observables
differ return the identical value `None`, so the value `run` hands back
carries no `stopped_early` field — nor any other summary field. -/
theorem run_summary_cex :
    SteamMiner.run_return badJsonTransport 250 0 =
      SteamMiner.run_return emptyTransport 250 0 ∧
    (SteamMiner.run badJsonTransport 250 0).map (fun st => st.stopped_early) =
      Except.ok true ∧
    (SteamMiner.run emptyTransport 250 0).map (fun st => st.stopped_early) =
      Except.ok false :=
  ⟨rfl, rfl, rfl⟩

/-- Claim C9 (amended): `run` has no return statement: every normal
completion returns `None` (unit), so batches attempted, records seen,
accepted identifiers and the stopped-early flag are observable only
through the output file, the cursor file and the console, never through a
returned `RunSummary`. -/
theorem run_returns_none (transport : Transport) (n s0 : Int)
    (st : RunState) (h : SteamMiner.run transport n s0 = Except.ok st) :
    SteamMiner.run_return transport n s0 = Except.ok () := by
  simp [SteamMiner.run_return, h, Except.map]

/-- Witness for the amended claim C9 at a concrete completed run. -/
theorem run_returns_none_witness :
    SteamMiner.run_return emptyTransport 300 0 = Except.ok () :=
  run_returns_none emptyTransport 300 0 _ rfl
